import Mathlib

/-!
# Verification of the Even G2 calendar companion device pipeline

Shallow embedding of the BLE packet codec (`src/services/ble/G2Protocol.ts`),
the connection manager's reconnect policy (`src/services/ble/BLEManager.ts`),
the display renderer's text wrapping and layout diff engine
(`src/services/display/DisplayRenderer.ts`), and the display sanitizer
(`src/utils/`), together with proofs of the specified properties.

Modelling conventions:
* Bytes and TypeScript `number` fields are modelled as `Nat`; the JavaScript
  operations `v & 0xFF` and `(v >> 8) & 0xFF` become `v % 256` and
  `v / 256 % 256` (identical for non-negative values below `2^31`, the only
  values the encoders receive).
* `Uint8Array` buffers become `List Nat`; the imperative index-by-index
  writes of the source become the corresponding list literals/appends.
* TypeScript strings that the codec immediately converts through
  `TextEncoder` are modelled directly as their UTF-8 byte sequences
  (`List Nat`), so `stringToBytes` is the identity on the representation.
-/

namespace G2Protocol

/-- `PROTOCOL_CONSTANTS.HEADER` (start of frame). -/
def HEADER : Nat := 0x02

/-- `PROTOCOL_CONSTANTS.CHECKSUM_SEED`. -/
def CHECKSUM_SEED : Nat := 0xFF

/-- `DisplayCommandType` numeric enum values. -/
def DisplayCommandType.TEXT : Nat := 0x01
def DisplayCommandType.CLEAR : Nat := 0x02
def DisplayCommandType.GRAPHICS : Nat := 0x03
def DisplayCommandType.BRIGHTNESS : Nat := 0x04
def DisplayCommandType.REFRESH : Nat := 0x05

/-- `TextAlignment` enum from `ble.types.ts`. -/
inductive TextAlignment where
  | LEFT
  | CENTER
  | RIGHT
deriving DecidableEq, Repr

/-- `TextDisplayCommand` (the `type` discriminant becomes the constructor tag
of `DisplayCommand`; `text` is the UTF-8 byte sequence of the string). -/
structure TextDisplayCommand where
  text : List Nat
  x : Nat
  y : Nat
  alignment : TextAlignment
  fontSize : Option Nat
  bold : Option Bool
deriving DecidableEq, Repr

/-- The rectangle of `ClearDisplayCommand.region`. -/
structure ClearRegion where
  x : Nat
  y : Nat
  width : Nat
  height : Nat
deriving DecidableEq, Repr

/-- `ClearDisplayCommand`. -/
structure ClearDisplayCommand where
  region : Option ClearRegion
deriving DecidableEq, Repr

/-- `GraphicsDisplayCommand` (`data` is the monochrome bitmap bytes). -/
structure GraphicsDisplayCommand where
  x : Nat
  y : Nat
  width : Nat
  height : Nat
  data : List Nat
deriving DecidableEq, Repr

/-- `BrightnessCommand`. -/
structure BrightnessCommand where
  level : Nat
  auto : Option Bool
deriving DecidableEq, Repr

/-- The `DisplayCommand` union, discriminated in the source by the numeric
`type` field. -/
inductive DisplayCommand where
  | text (c : TextDisplayCommand)
  | clear (c : ClearDisplayCommand)
  | graphics (c : GraphicsDisplayCommand)
  | brightness (c : BrightnessCommand)
deriving DecidableEq, Repr

/-- `G2ProtocolEncoder.calculateChecksum`: XOR fold seeded with
`CHECKSUM_SEED` (`checksum ^= data[i]` over the whole buffer). -/
def calculateChecksum (data : List Nat) : Nat :=
  data.foldl (fun checksum b => checksum ^^^ b) CHECKSUM_SEED

/-- `G2ProtocolEncoder.buildPacket`: header byte, command type byte, payload
length as two little-endian bytes, payload, then the checksum computed over
`packet.slice(1, offset)`, i.e. everything except header and checksum. -/
def buildPacket (commandType : Nat) (payload : List Nat) : List Nat :=
  HEADER :: commandType :: (payload.length % 256) :: (payload.length / 256 % 256) ::
    (payload ++
      [calculateChecksum
        (commandType :: (payload.length % 256) :: (payload.length / 256 % 256) :: payload)])

/-- JavaScript `a || b` for an optional numeric field: `undefined` and `0`
are both falsy. -/
def jsOrNat (v : Option Nat) (dflt : Nat) : Nat :=
  match v with
  | none => dflt
  | some n => if n = 0 then dflt else n

/-- `G2ProtocolEncoder.encodeAlignment`. -/
def encodeAlignment (alignment : TextAlignment) : Nat :=
  match alignment with
  | .LEFT => 0x00
  | .CENTER => 0x01
  | .RIGHT => 0x02

/-- The payload assembled by `G2ProtocolEncoder.encodeTextCommand`:
x (2 bytes LE), y (2 bytes LE), alignment, `command.fontSize || 18`
(truncated to a byte by the `Uint8Array` write), then the text bytes. -/
def textPayload (c : TextDisplayCommand) : List Nat :=
  [c.x % 256, c.x / 256 % 256, c.y % 256, c.y / 256 % 256,
   encodeAlignment c.alignment, jsOrNat c.fontSize 18 % 256] ++ c.text

/-- `G2ProtocolEncoder.encodeTextCommand`. -/
def encodeTextCommand (c : TextDisplayCommand) : List Nat :=
  buildPacket DisplayCommandType.TEXT (textPayload c)

/-- The payload assembled by `G2ProtocolEncoder.encodeClearCommand`. -/
def clearPayload (c : ClearDisplayCommand) : List Nat :=
  match c.region with
  | some r =>
      [r.x % 256, r.x / 256 % 256, r.y % 256, r.y / 256 % 256,
       r.width % 256, r.width / 256 % 256, r.height % 256, r.height / 256 % 256]
  | none => []

/-- `G2ProtocolEncoder.encodeClearCommand`. -/
def encodeClearCommand (c : ClearDisplayCommand) : List Nat :=
  buildPacket DisplayCommandType.CLEAR (clearPayload c)

/-- The payload assembled by `G2ProtocolEncoder.encodeGraphicsCommand`. -/
def graphicsPayload (c : GraphicsDisplayCommand) : List Nat :=
  [c.x % 256, c.x / 256 % 256, c.y % 256, c.y / 256 % 256,
   c.width % 256, c.width / 256 % 256, c.height % 256, c.height / 256 % 256] ++ c.data

/-- `G2ProtocolEncoder.encodeGraphicsCommand`. -/
def encodeGraphicsCommand (c : GraphicsDisplayCommand) : List Nat :=
  buildPacket DisplayCommandType.GRAPHICS (graphicsPayload c)

/-- The payload assembled by `G2ProtocolEncoder.encodeBrightnessCommand`:
`Math.max(0, Math.min(100, level))` and the auto flag byte. -/
def brightnessPayload (c : BrightnessCommand) : List Nat :=
  [Nat.max 0 (Nat.min 100 c.level), if c.auto = some true then 0x01 else 0x00]

/-- `G2ProtocolEncoder.encodeBrightnessCommand`. -/
def encodeBrightnessCommand (c : BrightnessCommand) : List Nat :=
  buildPacket DisplayCommandType.BRIGHTNESS (brightnessPayload c)

/-- The per-type dispatch of `G2BLEManager.sendCommand`. -/
def encodeCommand : DisplayCommand → List Nat
  | .text c => encodeTextCommand c
  | .clear c => encodeClearCommand c
  | .graphics c => encodeGraphicsCommand c
  | .brightness c => encodeBrightnessCommand c

/-- The command-type byte each encoder passes to `buildPacket`. -/
def commandTypeByte : DisplayCommand → Nat
  | .text _ => DisplayCommandType.TEXT
  | .clear _ => DisplayCommandType.CLEAR
  | .graphics _ => DisplayCommandType.GRAPHICS
  | .brightness _ => DisplayCommandType.BRIGHTNESS

/-- The payload each encoder passes to `buildPacket`. -/
def commandPayload : DisplayCommand → List Nat
  | .text c => textPayload c
  | .clear c => clearPayload c
  | .graphics c => graphicsPayload c
  | .brightness c => brightnessPayload c

theorem encodeCommand_eq_buildPacket (c : DisplayCommand) :
    encodeCommand c = buildPacket (commandTypeByte c) (commandPayload c) := by
  cases c <;> rfl

/-- `G2ProtocolUtils.validateTextCommand`.  (`command.x >= 0` and
`command.y >= 0` are vacuous on the `Nat` model and kept for fidelity.) -/
def validateTextCommand (c : TextDisplayCommand) : Bool :=
  decide (0 ≤ c.x) && decide (c.x < 640) && decide (0 ≤ c.y) && decide (c.y < 200) &&
    decide (0 < c.text.length) && decide (c.text.length ≤ 256)

/-- `G2ProtocolUtils.validateClearCommand`. -/
def validateClearCommand (c : ClearDisplayCommand) : Bool :=
  match c.region with
  | none => true
  | some r =>
      decide (0 ≤ r.x) && decide (0 ≤ r.y) && decide (0 < r.width) &&
        decide (0 < r.height) && decide (r.x + r.width ≤ 640) &&
        decide (r.y + r.height ≤ 200)

/-- `G2ProtocolUtils.validateGraphicsCommand` (`Math.ceil(w*h/8)` is
`(w*h + 7) / 8` on naturals). -/
def validateGraphicsCommand (c : GraphicsDisplayCommand) : Bool :=
  decide (0 ≤ c.x) && decide (0 ≤ c.y) && decide (0 < c.width) && decide (0 < c.height) &&
    decide (c.x + c.width ≤ 640) && decide (c.y + c.height ≤ 200) &&
    decide (c.data.length = (c.width * c.height + 7) / 8)

/-- `G2ProtocolUtils.validateBrightnessCommand`. -/
def validateBrightnessCommand (c : BrightnessCommand) : Bool :=
  decide (0 ≤ c.level) && decide (c.level ≤ 100)

/-- `G2ProtocolUtils.validateCommand`. -/
def validateCommand : DisplayCommand → Bool
  | .text c => validateTextCommand c
  | .clear c => validateClearCommand c
  | .graphics c => validateGraphicsCommand c
  | .brightness c => validateBrightnessCommand c

/-- C1 (amended): for every display command whose payload byte count is
below `2^16`, the encoder output is exactly
`[header 0x02][commandType][payload length as u16 LE][payload][checksum]`,
the u16 little-endian length field equals the payload byte count, the
checksum byte is the XOR-fold seeded with `0xFF` of every byte from the
command-type byte through the last payload byte, and the whole packet is
payload length + 5 bytes.  (The bound is forced: the length field is two
bytes, so it wraps for larger payloads, see the counterexample.) -/
theorem encode_packet_format (c : DisplayCommand)
    (h : (commandPayload c).length < 65536) :
    encodeCommand c =
      HEADER :: commandTypeByte c :: ((commandPayload c).length % 256) ::
        ((commandPayload c).length / 256 % 256) ::
        (commandPayload c ++
          [calculateChecksum
            (commandTypeByte c :: ((commandPayload c).length % 256) ::
              ((commandPayload c).length / 256 % 256) :: commandPayload c)]) ∧
    (commandPayload c).length % 256 + 256 * ((commandPayload c).length / 256 % 256)
      = (commandPayload c).length ∧
    (encodeCommand c).length = (commandPayload c).length + 5 := by
  refine ⟨?_, ?_, ?_⟩
  · rw [encodeCommand_eq_buildPacket]; rfl
  · omega
  · rw [encodeCommand_eq_buildPacket]
    simp [buildPacket]

theorem encode_packet_format_witness :
    (commandPayload (.brightness ⟨50, some true⟩)).length < 65536 ∧
    (encodeCommand (.brightness ⟨50, some true⟩)).length
      = (commandPayload (.brightness ⟨50, some true⟩)).length + 5 :=
  ⟨by decide, (encode_packet_format (.brightness ⟨50, some true⟩) (by decide)).2.2⟩

/-- A graphics command whose payload is exactly `2^16` bytes
(8 header bytes + 65528 bitmap bytes). -/
def oversizedGraphics : GraphicsDisplayCommand :=
  { x := 0, y := 0, width := 0, height := 0, data := List.replicate 65528 0 }

/-- C1 counterexample: for the 65536-byte payload the two length-field
bytes of the encoded packet both read `0`, so the u16 little-endian
length field (value `0 + 256 * 0 = 0`) does not equal the payload's byte
count — the claim as stated fails for this command. -/
theorem encode_packet_format_counterexample :
    (commandPayload (.graphics oversizedGraphics)).length = 65536 ∧
    (encodeCommand (.graphics oversizedGraphics)).take 4
      = [HEADER, DisplayCommandType.GRAPHICS, 0, 0] ∧
    (0 : Nat) + 256 * 0 ≠ 65536 := by
  have hlen : (commandPayload (.graphics oversizedGraphics)).length = 65536 := by
    show (graphicsPayload oversizedGraphics).length = 65536
    unfold graphicsPayload
    rw [List.length_append, show oversizedGraphics.data = List.replicate 65528 0 from rfl,
      List.length_replicate]
    norm_num
  refine ⟨hlen, ?_, by omega⟩
  rw [encodeCommand_eq_buildPacket]
  unfold buildPacket
  rw [hlen]
  rfl

/-- Decode of the alignment byte, inverse of `encodeAlignment`
(wire values from SPEC §6: `0=left, 1=center, 2=right`). -/
def decodeAlignment (b : Nat) : Option TextAlignment :=
  match b with
  | 0x00 => some .LEFT
  | 0x01 => some .CENTER
  | 0x02 => some .RIGHT
  | _ => none

/-- Modelled from the spec: the repository's `G2ProtocolDecoder` decodes
only TouchBar/battery/firmware data and ships no display-command packet
parser, so the per-type payload parsing of SPEC §4.1/§6 is modelled here
from the spec's wording (`TEXT payload: x:u16LE, y:u16LE, alignment:u8,
fontSize:u8, text:UTF-8 bytes`; `CLEAR payload: empty or x,y,width,height
u16LE each`; `BRIGHTNESS payload: level:u8, auto:u8(0|1)`; graphics follow
the encoder's `x,y,width,height` u16LE header + bitmap bytes). -/
def parsePayload (cmdType : Nat) (payload : List Nat) : Option DisplayCommand :=
  if cmdType = DisplayCommandType.TEXT then
    match payload with
    | xLo :: xHi :: yLo :: yHi :: al :: fs :: textBytes =>
        (decodeAlignment al).map fun a =>
          .text ⟨textBytes, xLo + 256 * xHi, yLo + 256 * yHi, a, some fs, none⟩
    | _ => none
  else if cmdType = DisplayCommandType.CLEAR then
    match payload with
    | [] => some (.clear ⟨none⟩)
    | [xLo, xHi, yLo, yHi, wLo, wHi, hLo, hHi] =>
        some (.clear ⟨some ⟨xLo + 256 * xHi, yLo + 256 * yHi,
          wLo + 256 * wHi, hLo + 256 * hHi⟩⟩)
    | _ => none
  else if cmdType = DisplayCommandType.GRAPHICS then
    match payload with
    | xLo :: xHi :: yLo :: yHi :: wLo :: wHi :: hLo :: hHi :: data =>
        some (.graphics ⟨xLo + 256 * xHi, yLo + 256 * yHi,
          wLo + 256 * wHi, hLo + 256 * hHi, data⟩)
    | _ => none
  else if cmdType = DisplayCommandType.BRIGHTNESS then
    match payload with
    | [level, auto] => some (.brightness ⟨level, some (auto == 1)⟩)
    | _ => none
  else none

/-- Modelled from the spec: framing-level decode of SPEC §4.1 — "requires
minimum packet length …; verifies declared length matches actual payload
size; recomputes checksum over type+length+payload and compares to trailing
byte; only then dispatches to a per-type payload parser". -/
def decodePacket (packet : List Nat) : Option DisplayCommand :=
  match packet with
  | header :: cmdType :: lenLo :: lenHi :: rest =>
      if header ≠ HEADER then none
      else
        let declaredLen := lenLo + 256 * lenHi
        if rest.length ≠ declaredLen + 1 then none
        else
          let payload := rest.take declaredLen
          let received := rest.getD declaredLen 0
          if calculateChecksum (cmdType :: lenLo :: lenHi :: payload) ≠ received then none
          else parsePayload cmdType payload
  | _ => none

/-- A command is wire-canonical when its optional fields are in the one
form the wire can represent: the encoder writes `fontSize || 18` and never
writes `bold` at all, and writes the `auto` flag as one byte, so absent
`fontSize`, `fontSize` values `0` or `≥ 256`, a set `bold` flag and an
absent `auto` flag cannot survive a round trip. -/
def wireCanonical : DisplayCommand → Bool
  | .text c =>
      (match c.fontSize with
       | some n => decide (0 < n) && decide (n < 256)
       | none => false) && (c.bold == none)
  | .clear _ => true
  | .graphics _ => true
  | .brightness c => c.auto.isSome

theorem decodePacket_buildPacket (t : Nat) (p : List Nat)
    (hp : p.length < 65536) :
    decodePacket (buildPacket t p) = parsePayload t p := by
  have hdecl : p.length % 256 + 256 * (p.length / 256 % 256) = p.length := by omega
  show decodePacket (HEADER :: t :: _ :: _ :: _) = parsePayload t p
  unfold decodePacket
  simp only [hdecl, List.length_append, List.length_cons, List.length_nil, ne_eq,
    not_true_eq_false, if_false, ite_not]
  rw [List.take_left' rfl, List.getD_append_right _ _ _ _ (le_refl _)]
  simp

theorem parsePayload_text_cons (xLo xHi yLo yHi al fs : Nat) (rest : List Nat) :
    parsePayload DisplayCommandType.TEXT (xLo :: xHi :: yLo :: yHi :: al :: fs :: rest)
      = (decodeAlignment al).map (fun a =>
          .text ⟨rest, xLo + 256 * xHi, yLo + 256 * yHi, a, some fs, none⟩) := rfl

theorem parsePayload_clear_empty :
    parsePayload DisplayCommandType.CLEAR [] = some (.clear ⟨none⟩) := rfl

theorem parsePayload_clear_region (xLo xHi yLo yHi wLo wHi hLo hHi : Nat) :
    parsePayload DisplayCommandType.CLEAR [xLo, xHi, yLo, yHi, wLo, wHi, hLo, hHi]
      = some (.clear ⟨some ⟨xLo + 256 * xHi, yLo + 256 * yHi,
          wLo + 256 * wHi, hLo + 256 * hHi⟩⟩) := rfl

theorem parsePayload_graphics_cons (xLo xHi yLo yHi wLo wHi hLo hHi : Nat)
    (data : List Nat) :
    parsePayload DisplayCommandType.GRAPHICS
        (xLo :: xHi :: yLo :: yHi :: wLo :: wHi :: hLo :: hHi :: data)
      = some (.graphics ⟨xLo + 256 * xHi, yLo + 256 * yHi,
          wLo + 256 * wHi, hLo + 256 * hHi, data⟩) := rfl

theorem parsePayload_brightness_pair (level auto : Nat) :
    parsePayload DisplayCommandType.BRIGHTNESS [level, auto]
      = some (.brightness ⟨level, some (auto == 1)⟩) := rfl

/-- C2 (amended): every valid command in wire-canonical form survives the
round trip: decoding the encoder's bytes yields the command field for
field.  (Wire-canonical is forced by the counterexample: the encoder
collapses an absent or zero `fontSize` to 18, truncates it to a byte,
never transmits `bold`, and always writes an `auto` byte.) -/
theorem decode_encode_roundtrip (c : DisplayCommand)
    (hv : validateCommand c = true) (hw : wireCanonical c = true) :
    decodePacket (encodeCommand c) = some c := by
  cases c with
  | text tc =>
      obtain ⟨txt, x, y, al, fs, bo⟩ := tc
      simp only [validateCommand, validateTextCommand, Bool.and_eq_true,
        decide_eq_true_eq] at hv
      obtain ⟨⟨⟨⟨⟨-, hx⟩, -⟩, hy⟩, -⟩, htxt⟩ := hv
      simp only [wireCanonical, Bool.and_eq_true, beq_iff_eq] at hw
      obtain ⟨hfs, hbo⟩ := hw
      subst hbo
      cases fs with
      | none => simp at hfs
      | some n =>
          simp only [Bool.and_eq_true, decide_eq_true_eq] at hfs
          obtain ⟨hn0, hn256⟩ := hfs
          have hlen : (commandPayload (.text ⟨txt, x, y, al, some n, none⟩)).length
              < 65536 := by
            simp only [commandPayload, textPayload, List.length_append, List.length_cons,
              List.length_nil]
            omega
          rw [encodeCommand_eq_buildPacket, decodePacket_buildPacket _ _ hlen]
          simp only [commandPayload, commandTypeByte, textPayload, List.cons_append,
            List.nil_append, parsePayload, reduceIte]
          cases al <;>
            simp only [encodeAlignment, decodeAlignment, Option.map_some', Option.some.injEq,
              DisplayCommand.text.injEq, TextDisplayCommand.mk.injEq, jsOrNat,
              if_neg (by omega : ¬ n = 0)] <;>
            exact ⟨trivial, by omega, by omega, trivial, by omega, trivial⟩
  | clear cc =>
      obtain ⟨reg⟩ := cc
      cases reg with
      | none =>
          have hlen : (commandPayload (.clear ⟨none⟩)).length < 65536 := by decide
          rw [encodeCommand_eq_buildPacket, decodePacket_buildPacket _ _ hlen]
          rfl
      | some r =>
          obtain ⟨X, Y, W, H⟩ := r
          simp only [validateCommand, validateClearCommand, Bool.and_eq_true,
            decide_eq_true_eq] at hv
          obtain ⟨⟨⟨⟨⟨-, -⟩, -⟩, -⟩, hxw⟩, hyh⟩ := hv
          have hlen : (commandPayload (.clear ⟨some ⟨X, Y, W, H⟩⟩)).length < 65536 := by
            simp only [commandPayload, clearPayload, List.length_cons, List.length_nil]
            omega
          rw [encodeCommand_eq_buildPacket, decodePacket_buildPacket _ _ hlen]
          show parsePayload DisplayCommandType.CLEAR
            [X % 256, X / 256 % 256, Y % 256, Y / 256 % 256,
             W % 256, W / 256 % 256, H % 256, H / 256 % 256] = _
          rw [parsePayload_clear_region]
          simp only [Option.some.injEq, DisplayCommand.clear.injEq,
            ClearDisplayCommand.mk.injEq, ClearRegion.mk.injEq]
          exact ⟨by omega, by omega, by omega, by omega⟩
  | graphics gc =>
      obtain ⟨X, Y, W, H, data⟩ := gc
      simp only [validateCommand, validateGraphicsCommand, Bool.and_eq_true,
        decide_eq_true_eq] at hv
      obtain ⟨⟨⟨⟨⟨⟨-, -⟩, -⟩, -⟩, hxw⟩, hyh⟩, hdata⟩ := hv
      have hlen : (commandPayload (.graphics ⟨X, Y, W, H, data⟩)).length < 65536 := by
        simp only [commandPayload, graphicsPayload, List.length_append, List.length_cons,
          List.length_nil]
        have hwh : W * H ≤ 640 * 200 := Nat.mul_le_mul (by omega) (by omega)
        omega
      rw [encodeCommand_eq_buildPacket, decodePacket_buildPacket _ _ hlen]
      show parsePayload DisplayCommandType.GRAPHICS
        (X % 256 :: X / 256 % 256 :: Y % 256 :: Y / 256 % 256 ::
         W % 256 :: W / 256 % 256 :: H % 256 :: H / 256 % 256 :: data) = _
      rw [parsePayload_graphics_cons]
      simp only [Option.some.injEq, DisplayCommand.graphics.injEq,
        GraphicsDisplayCommand.mk.injEq]
      exact ⟨by omega, by omega, by omega, by omega, trivial⟩
  | brightness bc =>
      obtain ⟨lvl, au⟩ := bc
      simp only [validateCommand, validateBrightnessCommand, Bool.and_eq_true,
        decide_eq_true_eq] at hv
      obtain ⟨-, hlvl⟩ := hv
      simp only [wireCanonical, Option.isSome_iff_exists] at hw
      obtain ⟨b, hb⟩ := hw
      subst hb
      have hlen : (commandPayload (.brightness ⟨lvl, some b⟩)).length < 65536 := by
        simp [commandPayload, brightnessPayload]
      rw [encodeCommand_eq_buildPacket, decodePacket_buildPacket _ _ hlen]
      cases b
      case false =>
          show parsePayload DisplayCommandType.BRIGHTNESS
            [Nat.max 0 (Nat.min 100 lvl), 0] = _
          rw [parsePayload_brightness_pair]
          simp only [Option.some.injEq, DisplayCommand.brightness.injEq,
            BrightnessCommand.mk.injEq]
          exact ⟨by show max 0 (min 100 lvl) = lvl; rw [max_eq_right (Nat.zero_le _), min_eq_right hlvl], by decide⟩
      case true =>
          show parsePayload DisplayCommandType.BRIGHTNESS
            [Nat.max 0 (Nat.min 100 lvl), 1] = _
          rw [parsePayload_brightness_pair]
          simp only [Option.some.injEq, DisplayCommand.brightness.injEq,
            BrightnessCommand.mk.injEq]
          exact ⟨by show max 0 (min 100 lvl) = lvl; rw [max_eq_right (Nat.zero_le _), min_eq_right hlvl], by decide⟩

/-- The UTF-8 bytes of `"Hello"`. -/
def helloBytes : List Nat := [0x48, 0x65, 0x6C, 0x6C, 0x6F]

/-- A valid text command with no explicit `fontSize`. -/
def textNoFontSize : TextDisplayCommand :=
  ⟨helloBytes, 10, 20, .LEFT, none, none⟩

/-- The same command with the default `fontSize` made explicit. -/
def textDefaultFontSize : TextDisplayCommand :=
  ⟨helloBytes, 10, 20, .LEFT, some 18, none⟩

/-- C2 counterexample: two distinct valid commands (one with `fontSize`
absent, one with it explicitly 18) encode to identical bytes because the
encoder writes `fontSize || 18`, so no decoder can round-trip both; in
particular the modelled decoder does not return the `fontSize`-less
command. -/
theorem decode_encode_roundtrip_counterexample :
    validateCommand (.text textNoFontSize) = true ∧
    validateCommand (.text textDefaultFontSize) = true ∧
    DisplayCommand.text textNoFontSize ≠ .text textDefaultFontSize ∧
    encodeCommand (.text textNoFontSize) = encodeCommand (.text textDefaultFontSize) ∧
    decodePacket (encodeCommand (.text textNoFontSize)) ≠ some (.text textNoFontSize) := by
  decide

theorem decode_encode_roundtrip_witness :
    validateCommand (.text textDefaultFontSize) = true ∧
    wireCanonical (.text textDefaultFontSize) = true ∧
    decodePacket (encodeCommand (.text textDefaultFontSize))
      = some (.text textDefaultFontSize) :=
  ⟨by decide, by decide, decode_encode_roundtrip _ (by decide) (by decide)⟩

/-- The out-of-bounds text command used for C4: `x = 700` lies outside
`[0, 640)`. -/
def outOfBoundsText : TextDisplayCommand :=
  { text := [0x41], x := 700, y := 10, alignment := .LEFT,
    fontSize := some 18, bold := none }

/-- C4: contrary to the claim, encoding an out-of-bounds text command does
not fail: `G2ProtocolUtils.validateTextCommand` rejects the command, but no
encoder ever calls it, and `encodeTextCommand` happily builds the full
12-byte packet (with `x` truncated to `700 % 256 = 188` in the payload). -/
theorem encode_out_of_bounds_still_builds :
    validateTextCommand outOfBoundsText = false ∧
    validateCommand (.text outOfBoundsText) = false ∧
    encodeTextCommand outOfBoundsText ≠ [] ∧
    (encodeTextCommand outOfBoundsText).length = 12 ∧
    (encodeTextCommand outOfBoundsText)[4]? = some 188 := by
  decide

/-- `G2ProtocolDecoder.validateChecksum`: reject buffers shorter than 5
bytes, then compare the trailing byte against the checksum recomputed over
`packet.slice(1, checksumIndex)` (everything between header and trailing
byte). -/
def validateChecksum (packet : List Nat) : Bool :=
  if packet.length < 5 then false
  else
    let checksumIndex := packet.length - 1
    let receivedChecksum := packet.getD checksumIndex 0
    let checksumData := (packet.drop 1).take (checksumIndex - 1)
    receivedChecksum == calculateChecksum checksumData

theorem foldl_xor_shift (m : Nat) :
    ∀ (l : List Nat) (x : Nat),
      l.foldl (fun acc b => acc ^^^ b) (x ^^^ m)
        = (l.foldl (fun acc b => acc ^^^ b) x) ^^^ m
  | [], _ => rfl
  | a :: l, x => by
      simp only [List.foldl_cons]
      rw [show x ^^^ m ^^^ a = x ^^^ a ^^^ m by
        rw [Nat.xor_assoc, Nat.xor_assoc, Nat.xor_comm m a]]
      exact foldl_xor_shift m l (x ^^^ a)

/-- Changing one buffer byte by XOR with `m` changes the XOR-fold checksum
by XOR with `m`. -/
theorem calculateChecksum_update (l1 l2 : List Nat) (b m : Nat) :
    calculateChecksum (l1 ++ (b ^^^ m) :: l2)
      = calculateChecksum (l1 ++ b :: l2) ^^^ m := by
  unfold calculateChecksum
  rw [List.foldl_append, List.foldl_append]
  simp only [List.foldl_cons]
  rw [← Nat.xor_assoc, foldl_xor_shift]

theorem xor_pow_two_ne_self (b k : Nat) : b ^^^ 2 ^ k ≠ b := by
  intro h
  have h2 : b ^^^ (b ^^^ 2 ^ k) = b ^^^ b := by rw [h]
  rw [← Nat.xor_assoc, Nat.xor_self, Nat.zero_xor] at h2
  exact (Nat.pow_pos (by omega : (0:Nat) < 2)).ne' h2

/-- `validateChecksum` on a buffer split off its trailing byte. -/
theorem validateChecksum_concat (l : List Nat) (c : Nat) (h : 4 ≤ l.length) :
    validateChecksum (l ++ [c]) = (c == calculateChecksum (l.drop 1)) := by
  unfold validateChecksum
  rw [if_neg (by simp; omega)]
  show ((l ++ [c]).getD ((l ++ [c]).length - 1) 0
      == calculateChecksum (((l ++ [c]).drop 1).take ((l ++ [c]).length - 1 - 1)))
    = (c == calculateChecksum (l.drop 1))
  have hlen : (l ++ [c]).length = l.length + 1 := by simp
  rw [hlen]
  have hidx : l.length + 1 - 1 = l.length := by omega
  rw [hidx]
  rw [List.getD_append_right _ _ _ _ (le_refl _), Nat.sub_self]
  rw [List.drop_append_of_le_length (by omega)]
  rw [List.take_left' (by simp)]
  rfl

theorem decodePacket_none_of_checksum_fail (p : List Nat)
    (h : validateChecksum p = false) : decodePacket p = none := by
  match p with
  | [] => rfl
  | [_] => rfl
  | [_, _] => rfl
  | [_, _, _] => rfl
  | header :: cmdType :: lenLo :: lenHi :: rest =>
    simp only [decodePacket]
    by_cases hh : header = HEADER
    case neg => rw [if_pos hh]
    case pos =>
      subst hh
      rw [if_neg (by simp)]
      by_cases hl : rest.length = (lenLo + 256 * lenHi) + 1
      case neg => rw [if_pos (by omega)]
      case pos =>
        rw [if_neg (by omega)]
        have hrest : rest ≠ [] := by
          intro h0
          rw [h0] at hl
          simp at hl
        obtain ⟨mid, last, rfl⟩ := List.eq_nil_or_concat rest |>.resolve_left hrest
        rw [List.concat_eq_append] at h hl ⊢
        have hmid : mid.length = lenLo + 256 * lenHi := by
          simp at hl
          omega
        rw [List.take_left' hmid, List.getD_append_right _ _ _ _ (by omega)]
        rw [hmid.symm, Nat.sub_self]
        rw [show (HEADER :: cmdType :: lenLo :: lenHi :: (mid ++ [last]))
              = (HEADER :: cmdType :: lenLo :: lenHi :: mid) ++ [last] by simp] at h
        rw [validateChecksum_concat _ _ (by simp)] at h
        have hne : last ≠ calculateChecksum (cmdType :: lenLo :: lenHi :: mid) := by
          intro he
          rw [show (HEADER :: cmdType :: lenLo :: lenHi :: mid).drop 1
                = cmdType :: lenLo :: lenHi :: mid from rfl] at h
          rw [he] at h
          simp at h
        rw [if_pos (by simpa using fun he => hne he.symm)]

/-- C3: flipping a single bit of a payload byte or of the trailing checksum
byte of any buffer that passes the integrity check makes `validateChecksum`
return `false`, and the (spec-modelled) decoder then produces no command.
The flipped position `l1.length ≥ 4` ranges over exactly the payload bytes
and the checksum byte of a well-formed packet. -/
theorem single_bitflip_detected (l1 : List Nat) (b : Nat) (l2 : List Nat) (k : Nat)
    (hk : k < 8) (hpos : 4 ≤ l1.length)
    (hval : validateChecksum (l1 ++ b :: l2) = true) :
    validateChecksum (l1 ++ (b ^^^ 2 ^ k) :: l2) = false ∧
    decodePacket (l1 ++ (b ^^^ 2 ^ k) :: l2) = none := by
  have hfalse : validateChecksum (l1 ++ (b ^^^ 2 ^ k) :: l2) = false := by
    rcases List.eq_nil_or_concat l2 with rfl | ⟨l2', c, rfl⟩
    case inr =>
      rw [List.concat_eq_append] at hval ⊢
      rw [show l1 ++ (b ^^^ 2 ^ k) :: (l2' ++ [c]) = (l1 ++ (b ^^^ 2 ^ k) :: l2') ++ [c]
        by simp]
      rw [validateChecksum_concat _ _ (by simp; omega)]
      rw [show l1 ++ b :: (l2' ++ [c]) = (l1 ++ b :: l2') ++ [c] by simp] at hval
      rw [validateChecksum_concat _ _ (by simp; omega)] at hval
      have hc : c = calculateChecksum ((l1 ++ b :: l2').drop 1) := by simpa using hval
      rw [beq_eq_false_iff_ne]
      rw [List.drop_append_of_le_length (by omega), calculateChecksum_update]
      rw [List.drop_append_of_le_length (by omega)] at hc
      rw [hc]
      exact (xor_pow_two_ne_self _ k).symm
    case inl =>
      rw [validateChecksum_concat l1 _ hpos]
      rw [validateChecksum_concat l1 _ hpos] at hval
      have hb : b = calculateChecksum (l1.drop 1) := by simpa using hval
      rw [beq_eq_false_iff_ne, ← hb]
      exact xor_pow_two_ne_self b k
  exact ⟨hfalse, decodePacket_none_of_checksum_fail _ hfalse⟩

theorem single_bitflip_detected_witness :
    validateChecksum ([2, 4, 2, 0] ++ 50 :: [1, 202]) = true ∧
    validateChecksum ([2, 4, 2, 0] ++ (50 ^^^ 2 ^ 0) :: [1, 202]) = false :=
  ⟨by decide,
   (single_bitflip_detected [2, 4, 2, 0] 50 [1, 202] 0 (by decide) (by decide)
     (by decide)).1⟩

end G2Protocol

namespace G2BLE

/-!
Embedding of the reconnect policy of `G2BLEManager`
(`src/services/ble/BLEManager.ts`).  Only the state touched by
`handleDisconnection` and a successful `connect` is modelled: the
connection-state enum, the `reconnectAttempts` counter and the presence of
a connected device.  The `setTimeout`-scheduled callback is modelled as a
boolean "a delayed timer was scheduled" effect descriptor.
-/

/-- `BLEConnectionState` from `ble.types.ts`. -/
inductive BLEConnectionState where
  | DISCONNECTED
  | SCANNING
  | CONNECTING
  | CONNECTED
  | DISCONNECTING
  | ERROR
deriving DecidableEq, Repr

/-- `BLEManagerConfig` (the fields `handleDisconnection` reads, plus the
rest of `DEFAULT_CONFIG` for completeness). -/
structure BLEManagerConfig where
  scanTimeout : Nat
  connectionTimeout : Nat
  reconnectDelay : Nat
  maxReconnectAttempts : Nat
  enableAutoReconnect : Bool
  rssiThreshold : Int
deriving DecidableEq, Repr

/-- `DEFAULT_CONFIG` from `BLEManager.ts`. -/
def DEFAULT_CONFIG : BLEManagerConfig :=
  { scanTimeout := 10000, connectionTimeout := 5000, reconnectDelay := 2000,
    maxReconnectAttempts := 5, enableAutoReconnect := true, rssiThreshold := -80 }

/-- The mutable fields of `G2BLEManager` that the disconnection handler and
a successful connection touch. -/
structure ManagerState where
  connectionState : BLEConnectionState
  reconnectAttempts : Nat
  hasConnectedDevice : Bool
deriving DecidableEq, Repr

/-- `G2BLEManager.handleDisconnection`: clear the device, set the state to
`DISCONNECTED`, and if auto-reconnect is enabled and
`reconnectAttempts < maxReconnectAttempts`, increment the counter and
schedule the delayed reconnect callback (`setTimeout`); otherwise only the
connection-lost error is raised.  The returned boolean records whether a
delayed timer was scheduled. -/
def handleDisconnection (config : BLEManagerConfig) (s : ManagerState) :
    ManagerState × Bool :=
  let s1 : ManagerState :=
    { s with hasConnectedDevice := false,
             connectionState := BLEConnectionState.DISCONNECTED }
  if config.enableAutoReconnect ∧ s.reconnectAttempts < config.maxReconnectAttempts then
    ({ s1 with reconnectAttempts := s.reconnectAttempts + 1 }, true)
  else
    (s1, false)

/-- The state fields set by a successful `G2BLEManager.connect`:
`reconnectAttempts = 0`, state `CONNECTED`, device present. -/
def connectSuccess (s : ManagerState) : ManagerState :=
  { s with hasConnectedDevice := true,
           reconnectAttempts := 0,
           connectionState := BLEConnectionState.CONNECTED }

/-- `n` consecutive link-loss events with no intervening successful
connection, starting from `s`. -/
def iterateLinkLoss (config : BLEManagerConfig) (s : ManagerState) : Nat → ManagerState
  | 0 => s
  | n + 1 => (handleDisconnection config (iterateLinkLoss config s n)).1

theorem iterateLinkLoss_attempts_le (config : BLEManagerConfig) (s : ManagerState)
    (h : s.reconnectAttempts ≤ config.maxReconnectAttempts) :
    ∀ n, (iterateLinkLoss config s n).reconnectAttempts ≤ config.maxReconnectAttempts := by
  intro n
  induction n with
  | zero => exact h
  | succ n ih =>
      show (handleDisconnection config (iterateLinkLoss config s n)).1.reconnectAttempts
        ≤ config.maxReconnectAttempts
      unfold handleDisconnection
      split
      case isTrue hcond => exact hcond.2
      case isFalse => exact ih

theorem iterateLinkLoss_disconnected (config : BLEManagerConfig) (s : ManagerState) :
    ∀ n, 0 < n →
      (iterateLinkLoss config s n).connectionState = BLEConnectionState.DISCONNECTED := by
  intro n hn
  cases n with
  | zero => omega
  | succ n =>
      show (handleDisconnection config (iterateLinkLoss config s n)).1.connectionState
        = BLEConnectionState.DISCONNECTED
      unfold handleDisconnection
      split <;> rfl

theorem handleDisconnection_no_schedule_at_bound (config : BLEManagerConfig)
    (s : ManagerState) (h : config.maxReconnectAttempts ≤ s.reconnectAttempts) :
    (handleDisconnection config s).2 = false := by
  unfold handleDisconnection
  rw [if_neg (by omega)]

/-- C8: starting from `CONNECTED` right after a successful connection
(attempt counter 0), `maxReconnectAttempts` consecutive link losses leave
the machine in the terminal `DISCONNECTED` state; the counter never
exceeds `maxReconnectAttempts` at any point, and once it has reached that
bound the disconnection handler schedules no further delayed reconnect. -/
theorem reconnect_attempts_bounded (config : BLEManagerConfig) (s0 : ManagerState)
    (hmax : 0 < config.maxReconnectAttempts)
    (hconn : s0.connectionState = BLEConnectionState.CONNECTED)
    (hatt : s0.reconnectAttempts = 0) :
    (iterateLinkLoss config s0 config.maxReconnectAttempts).connectionState
      = BLEConnectionState.DISCONNECTED ∧
    (∀ n, (iterateLinkLoss config s0 n).reconnectAttempts
      ≤ config.maxReconnectAttempts) ∧
    (∀ n, config.maxReconnectAttempts
        ≤ (iterateLinkLoss config s0 n).reconnectAttempts →
      (handleDisconnection config (iterateLinkLoss config s0 n)).2 = false) := by
  refine ⟨iterateLinkLoss_disconnected config s0 _ hmax, ?_, ?_⟩
  · exact iterateLinkLoss_attempts_le config s0 (by omega)
  · intro n hn
    exact handleDisconnection_no_schedule_at_bound config _ hn

theorem reconnect_attempts_bounded_witness :
    0 < DEFAULT_CONFIG.maxReconnectAttempts ∧
    (iterateLinkLoss DEFAULT_CONFIG
        ⟨BLEConnectionState.CONNECTED, 0, true⟩
        DEFAULT_CONFIG.maxReconnectAttempts).connectionState
      = BLEConnectionState.DISCONNECTED :=
  ⟨by decide,
   (reconnect_attempts_bounded DEFAULT_CONFIG ⟨BLEConnectionState.CONNECTED, 0, true⟩
     (by decide) (by decide) (by decide)).1⟩

end G2BLE

namespace Display

/-!
Embedding of `DisplayRenderer.calculateDiff`, `hasElementChanged`,
`getAllElements`, `renderLayout`'s element collection and `wrapText`
(`src/services/display/DisplayRenderer.ts`).  The `timestamp: Date` field
of `DisplayUpdate` (wall-clock time) and the rendering-metrics bookkeeping
are not modelled; `clearBefore` is the boolean the source assigns on every
diff path.
-/

/-- `DisplayRegion`. -/
structure DisplayRegion where
  x : Nat
  y : Nat
  width : Nat
  height : Nat
deriving DecidableEq, Repr

/-- `FontSize` enum (named values 14/18/24/32). -/
inductive FontSize where
  | SMALL
  | MEDIUM
  | LARGE
  | XLARGE
deriving DecidableEq, Repr

/-- The `'left' | 'center' | 'right'` union of `TextStyle.alignment`. -/
inductive Alignment where
  | left
  | center
  | right
deriving DecidableEq, Repr

/-- `TextStyle`. -/
structure TextStyle where
  fontSize : FontSize
  bold : Option Bool
  alignment : Option Alignment
deriving DecidableEq, Repr

/-- `DisplayElement`. -/
structure DisplayElement where
  id : String
  region : DisplayRegion
  content : String
  style : TextStyle
  visible : Bool
deriving DecidableEq, Repr

/-- `CalendarDisplayLayout`: three required and two optional regions. -/
structure CalendarDisplayLayout where
  title : DisplayElement
  timeRange : DisplayElement
  location : Option DisplayElement
  timeUntil : DisplayElement
  duration : Option DisplayElement
deriving DecidableEq, Repr

/-- `DisplayUpdateType`. -/
inductive DisplayUpdateType where
  | FULL
  | PARTIAL
  | INCREMENTAL
deriving DecidableEq, Repr

/-- `DisplayUpdate` (without the wall-clock `timestamp`). -/
structure DisplayUpdate where
  type : DisplayUpdateType
  elements : List DisplayElement
  clearBefore : Bool
deriving DecidableEq, Repr

/-- `DisplayRenderer.hasElementChanged`: both absent → unchanged; one
absent → changed; otherwise compare content and visibility. -/
def hasElementChanged (prev current : Option DisplayElement) : Bool :=
  match prev, current with
  | none, none => false
  | none, some _ => true
  | some _, none => true
  | some p, some c => p.content != c.content || p.visible != c.visible

/-- `DisplayRenderer.getAllElements`: the three required regions, then the
optional ones when present, filtered to the visible ones. -/
def getAllElements (layout : CalendarDisplayLayout) : List DisplayElement :=
  (([layout.title, layout.timeRange, layout.timeUntil]
      ++ layout.location.toList ++ layout.duration.toList).filter (fun e => e.visible))

/-- The element collection of `DisplayRenderer.renderLayout` (pushes each
region in source order when visible). -/
def renderLayoutElements (layout : CalendarDisplayLayout) : List DisplayElement :=
  (if layout.title.visible then [layout.title] else []) ++
  (if layout.timeRange.visible then [layout.timeRange] else []) ++
  (match layout.location with
   | some l => if l.visible then [l] else []
   | none => []) ++
  (if layout.timeUntil.visible then [layout.timeUntil] else []) ++
  (match layout.duration with
   | some d => if d.visible then [d] else []
   | none => [])

/-- The `DisplayUpdate` built by `DisplayRenderer.renderLayout`. -/
def renderLayoutUpdate (layout : CalendarDisplayLayout) : DisplayUpdate :=
  { type := DisplayUpdateType.FULL,
    elements := renderLayoutElements layout,
    clearBefore := true }

/-- The `changedElements` list accumulated by
`DisplayRenderer.calculateDiff`: for each of the five named regions, when
`hasElementChanged` reports a change, push the *current* element — for the
optional regions only when it is present. -/
def changedElements (previous current : CalendarDisplayLayout) : List DisplayElement :=
  (if hasElementChanged (some previous.title) (some current.title)
    then [current.title] else []) ++
  (if hasElementChanged (some previous.timeRange) (some current.timeRange)
    then [current.timeRange] else []) ++
  (if hasElementChanged previous.location current.location
    then current.location.toList else []) ++
  (if hasElementChanged (some previous.timeUntil) (some current.timeUntil)
    then [current.timeUntil] else []) ++
  (if hasElementChanged previous.duration current.duration
    then current.duration.toList else [])

/-- `DisplayRenderer.calculateDiff`: null previous renders the full layout;
otherwise `changedElements.length === 0 ? FULL : length > 2 ? FULL :
INCREMENTAL`, with all visible elements and a leading clear on the FULL
paths and exactly the changed elements otherwise. -/
def calculateDiff (previous : Option CalendarDisplayLayout)
    (current : CalendarDisplayLayout) : DisplayUpdate :=
  match previous with
  | none => renderLayoutUpdate current
  | some previous =>
      let ce := changedElements previous current
      let updateType :=
        if ce.length = 0 then DisplayUpdateType.FULL
        else if 2 < ce.length then DisplayUpdateType.FULL
        else DisplayUpdateType.INCREMENTAL
      { type := updateType,
        elements :=
          if updateType = DisplayUpdateType.FULL then getAllElements current else ce,
        clearBefore := updateType = DisplayUpdateType.FULL }

theorem hasElementChanged_self (o : Option DisplayElement) :
    hasElementChanged o o = false := by
  cases o with
  | none => rfl
  | some e => simp [hasElementChanged]

theorem changedElements_self (L : CalendarDisplayLayout) :
    changedElements L L = [] := by
  unfold changedElements
  rw [hasElementChanged_self, hasElementChanged_self, hasElementChanged_self,
    hasElementChanged_self, hasElementChanged_self]
  simp

/-- C5 (amended): diffing a layout against itself yields a *Full* update —
not the claimed empty Incremental one — containing every visible element of
the layout, with a leading clear: the source maps a zero-length
`changedElements` list to `DisplayUpdateType.FULL`. -/
theorem diff_identical_layout (L : CalendarDisplayLayout) :
    calculateDiff (some L) L
      = { type := DisplayUpdateType.FULL,
          elements := getAllElements L,
          clearBefore := true } := by
  simp only [calculateDiff, changedElements_self]
  rfl

/-- A small concrete element for the diff counterexamples. -/
def sampleElement (i content : String) : DisplayElement :=
  { id := i, region := ⟨10, 20, 620, 40⟩, content := content,
    style := ⟨FontSize.LARGE, some true, some Alignment.left⟩, visible := true }

/-- A concrete layout with three visible required regions. -/
def sampleLayout : CalendarDisplayLayout :=
  { title := sampleElement "title" "Standup",
    timeRange := sampleElement "timeRange" "9:00 - 9:30",
    location := none,
    timeUntil := sampleElement "timeUntil" "in 5 min",
    duration := none }

/-- C5 counterexample: on a concrete layout, `diff(L, L)` has kind `FULL`
with a non-empty element list, not the claimed `Incremental` with an empty
list. -/
theorem diff_identical_layout_counterexample :
    (calculateDiff (some sampleLayout) sampleLayout).type = DisplayUpdateType.FULL ∧
    (calculateDiff (some sampleLayout) sampleLayout).type ≠ DisplayUpdateType.INCREMENTAL ∧
    (calculateDiff (some sampleLayout) sampleLayout).elements ≠ [] := by
  decide

theorem diff_identical_layout_witness :
    calculateDiff (some sampleLayout) sampleLayout
      = { type := DisplayUpdateType.FULL,
          elements := getAllElements sampleLayout,
          clearBefore := true } :=
  diff_identical_layout sampleLayout

/-- The five named regions of a `CalendarDisplayLayout`. -/
inductive RegionName where
  | title
  | timeRange
  | location
  | timeUntil
  | duration
deriving DecidableEq, Repr

/-- The (optional) element a layout holds at a named region, exactly as
`calculateDiff` reads it. -/
def regionGet (r : RegionName) (L : CalendarDisplayLayout) : Option DisplayElement :=
  match r with
  | .title => some L.title
  | .timeRange => some L.timeRange
  | .location => L.location
  | .timeUntil => some L.timeUntil
  | .duration => L.duration

/-- Whether `calculateDiff` considers region `r` changed between the two
layouts. -/
def regionChanged (previous current : CalendarDisplayLayout) (r : RegionName) : Bool :=
  hasElementChanged (regionGet r previous) (regionGet r current)

/-- C6: (1) if exactly one named region differs (per `hasElementChanged`,
the content/visibility comparison) and the current layout holds an element
there, the diff is `Incremental` containing exactly that element with no
leading clear; (2) if exactly four of the five regions differ, all with the
current element present, the diff is `Full` with a leading clear. -/
theorem diff_one_region_incremental_four_full :
    (∀ (p c : CalendarDisplayLayout) (r : RegionName) (e : DisplayElement),
      regionChanged p c r = true →
      regionGet r c = some e →
      (∀ r', r' ≠ r → regionChanged p c r' = false) →
      calculateDiff (some p) c
        = { type := DisplayUpdateType.INCREMENTAL, elements := [e],
            clearBefore := false }) ∧
    (∀ (p c : CalendarDisplayLayout) (r0 : RegionName),
      (∀ r, r ≠ r0 → regionChanged p c r = true) →
      regionChanged p c r0 = false →
      (∀ r, regionChanged p c r = true → (regionGet r c).isSome = true) →
      (calculateDiff (some p) c).type = DisplayUpdateType.FULL ∧
      (calculateDiff (some p) c).clearBefore = true) := by
  constructor
  · intro p c r e hch hget hothers
    cases r with
    | title =>
        have h1 : hasElementChanged (some p.title) (some c.title) = true := hch
        have h2 : hasElementChanged (some p.timeRange) (some c.timeRange) = false :=
          hothers .timeRange (by decide)
        have h3 : hasElementChanged p.location c.location = false :=
          hothers .location (by decide)
        have h4 : hasElementChanged (some p.timeUntil) (some c.timeUntil) = false :=
          hothers .timeUntil (by decide)
        have h5 : hasElementChanged p.duration c.duration = false :=
          hothers .duration (by decide)
        have he : c.title = e := Option.some.inj hget
        simp only [calculateDiff, changedElements, h1, h2, h3, h4, h5]
        rw [he]
        rfl
    | timeRange =>
        have h1 : hasElementChanged (some p.title) (some c.title) = false :=
          hothers .title (by decide)
        have h2 : hasElementChanged (some p.timeRange) (some c.timeRange) = true := hch
        have h3 : hasElementChanged p.location c.location = false :=
          hothers .location (by decide)
        have h4 : hasElementChanged (some p.timeUntil) (some c.timeUntil) = false :=
          hothers .timeUntil (by decide)
        have h5 : hasElementChanged p.duration c.duration = false :=
          hothers .duration (by decide)
        have he : c.timeRange = e := Option.some.inj hget
        simp only [calculateDiff, changedElements, h1, h2, h3, h4, h5]
        rw [he]
        rfl
    | location =>
        have h1 : hasElementChanged (some p.title) (some c.title) = false :=
          hothers .title (by decide)
        have h2 : hasElementChanged (some p.timeRange) (some c.timeRange) = false :=
          hothers .timeRange (by decide)
        have h3 : hasElementChanged p.location c.location = true := hch
        have h4 : hasElementChanged (some p.timeUntil) (some c.timeUntil) = false :=
          hothers .timeUntil (by decide)
        have h5 : hasElementChanged p.duration c.duration = false :=
          hothers .duration (by decide)
        have he : c.location = some e := hget
        simp only [calculateDiff, changedElements, h1, h2, h3, h4, h5]
        rw [he]
        rfl
    | timeUntil =>
        have h1 : hasElementChanged (some p.title) (some c.title) = false :=
          hothers .title (by decide)
        have h2 : hasElementChanged (some p.timeRange) (some c.timeRange) = false :=
          hothers .timeRange (by decide)
        have h3 : hasElementChanged p.location c.location = false :=
          hothers .location (by decide)
        have h4 : hasElementChanged (some p.timeUntil) (some c.timeUntil) = true := hch
        have h5 : hasElementChanged p.duration c.duration = false :=
          hothers .duration (by decide)
        have he : c.timeUntil = e := Option.some.inj hget
        simp only [calculateDiff, changedElements, h1, h2, h3, h4, h5]
        rw [he]
        rfl
    | duration =>
        have h1 : hasElementChanged (some p.title) (some c.title) = false :=
          hothers .title (by decide)
        have h2 : hasElementChanged (some p.timeRange) (some c.timeRange) = false :=
          hothers .timeRange (by decide)
        have h3 : hasElementChanged p.location c.location = false :=
          hothers .location (by decide)
        have h4 : hasElementChanged (some p.timeUntil) (some c.timeUntil) = false :=
          hothers .timeUntil (by decide)
        have h5 : hasElementChanged p.duration c.duration = true := hch
        have he : c.duration = some e := hget
        simp only [calculateDiff, changedElements, h1, h2, h3, h4, h5]
        rw [he]
        rfl
  · intro p c r0 hothers hr0 hsome
    have hlen : 2 < (changedElements p c).length := by
      cases r0 with
      | title =>
          have h1 : hasElementChanged (some p.title) (some c.title) = false := hr0
          have h2 : hasElementChanged (some p.timeRange) (some c.timeRange) = true :=
            hothers .timeRange (by decide)
          have h3 : hasElementChanged p.location c.location = true :=
            hothers .location (by decide)
          have h4 : hasElementChanged (some p.timeUntil) (some c.timeUntil) = true :=
            hothers .timeUntil (by decide)
          have h5 : hasElementChanged p.duration c.duration = true :=
            hothers .duration (by decide)
          obtain ⟨le, hle⟩ := Option.isSome_iff_exists.mp (hsome .location h3)
          obtain ⟨de, hde⟩ := Option.isSome_iff_exists.mp (hsome .duration h5)
          have hle' : c.location = some le := hle
          have hde' : c.duration = some de := hde
          simp only [changedElements, h1, h2, h3, h4, h5]
          rw [hle', hde']
          simp
      | timeRange =>
          have h1 : hasElementChanged (some p.title) (some c.title) = true :=
            hothers .title (by decide)
          have h2 : hasElementChanged (some p.timeRange) (some c.timeRange) = false := hr0
          have h3 : hasElementChanged p.location c.location = true :=
            hothers .location (by decide)
          have h4 : hasElementChanged (some p.timeUntil) (some c.timeUntil) = true :=
            hothers .timeUntil (by decide)
          have h5 : hasElementChanged p.duration c.duration = true :=
            hothers .duration (by decide)
          obtain ⟨le, hle⟩ := Option.isSome_iff_exists.mp (hsome .location h3)
          obtain ⟨de, hde⟩ := Option.isSome_iff_exists.mp (hsome .duration h5)
          have hle' : c.location = some le := hle
          have hde' : c.duration = some de := hde
          simp only [changedElements, h1, h2, h3, h4, h5]
          rw [hle', hde']
          simp
      | location =>
          have h1 : hasElementChanged (some p.title) (some c.title) = true :=
            hothers .title (by decide)
          have h2 : hasElementChanged (some p.timeRange) (some c.timeRange) = true :=
            hothers .timeRange (by decide)
          have h3 : hasElementChanged p.location c.location = false := hr0
          have h4 : hasElementChanged (some p.timeUntil) (some c.timeUntil) = true :=
            hothers .timeUntil (by decide)
          have h5 : hasElementChanged p.duration c.duration = true :=
            hothers .duration (by decide)
          obtain ⟨de, hde⟩ := Option.isSome_iff_exists.mp (hsome .duration h5)
          have hde' : c.duration = some de := hde
          simp only [changedElements, h1, h2, h3, h4, h5]
          rw [hde']
          simp
      | timeUntil =>
          have h1 : hasElementChanged (some p.title) (some c.title) = true :=
            hothers .title (by decide)
          have h2 : hasElementChanged (some p.timeRange) (some c.timeRange) = true :=
            hothers .timeRange (by decide)
          have h3 : hasElementChanged p.location c.location = true :=
            hothers .location (by decide)
          have h4 : hasElementChanged (some p.timeUntil) (some c.timeUntil) = false := hr0
          have h5 : hasElementChanged p.duration c.duration = true :=
            hothers .duration (by decide)
          obtain ⟨le, hle⟩ := Option.isSome_iff_exists.mp (hsome .location h3)
          obtain ⟨de, hde⟩ := Option.isSome_iff_exists.mp (hsome .duration h5)
          have hle' : c.location = some le := hle
          have hde' : c.duration = some de := hde
          simp only [changedElements, h1, h2, h3, h4, h5]
          rw [hle', hde']
          simp
      | duration =>
          have h1 : hasElementChanged (some p.title) (some c.title) = true :=
            hothers .title (by decide)
          have h2 : hasElementChanged (some p.timeRange) (some c.timeRange) = true :=
            hothers .timeRange (by decide)
          have h3 : hasElementChanged p.location c.location = true :=
            hothers .location (by decide)
          have h4 : hasElementChanged (some p.timeUntil) (some c.timeUntil) = true :=
            hothers .timeUntil (by decide)
          have h5 : hasElementChanged p.duration c.duration = false := hr0
          obtain ⟨le, hle⟩ := Option.isSome_iff_exists.mp (hsome .location h3)
          have hle' : c.location = some le := hle
          simp only [changedElements, h1, h2, h3, h4, h5]
          rw [hle']
          simp
    constructor <;>
      · simp only [calculateDiff]
        rw [if_neg (by omega), if_pos hlen]
        try rfl

theorem diff_one_region_incremental_four_full_witness :
    calculateDiff (some sampleLayout)
        { sampleLayout with title := sampleElement "title" "Retro" }
      = { type := DisplayUpdateType.INCREMENTAL,
          elements := [sampleElement "title" "Retro"], clearBefore := false } ∧
    (calculateDiff
        (some { sampleLayout with
                  location := some (sampleElement "location" "Room 1"),
                  duration := some (sampleElement "duration" "30 min") })
        { title := sampleElement "title" "Retro",
          timeRange := sampleElement "timeRange" "10:00 - 10:30",
          location := some (sampleElement "location" "Room 2"),
          timeUntil := sampleLayout.timeUntil,
          duration := some (sampleElement "duration" "45 min") }).type
      = DisplayUpdateType.FULL :=
  ⟨diff_one_region_incremental_four_full.1 sampleLayout
      { sampleLayout with title := sampleElement "title" "Retro" }
      .title (sampleElement "title" "Retro") (by decide) (by decide)
      (by intro r' hr'; revert hr'; cases r' <;> decide),
   (diff_one_region_incremental_four_full.2
      { sampleLayout with
          location := some (sampleElement "location" "Room 1"),
          duration := some (sampleElement "duration" "30 min") }
      { title := sampleElement "title" "Retro",
        timeRange := sampleElement "timeRange" "10:00 - 10:30",
        location := some (sampleElement "location" "Room 2"),
        timeUntil := sampleLayout.timeUntil,
        duration := some (sampleElement "duration" "45 min") }
      .timeUntil
      (by intro r hr; revert hr; cases r <;> decide)
      (by decide)
      (by intro r hr; revert hr; cases r <;> decide)).1⟩

/-- C7 (amended): a removed region does *not* escalate the diff to `Full`
in general.  (1) When a region present in the previous layout is absent
from the current one and no changed region contributed a current element
(`changedElements = []`), the result is `Full` with a leading clear — only
because the zero-length branch maps to `Full`.  (2) When one or two other
changed regions did contribute elements, the result is `Incremental` with
no leading clear, consisting of exactly those elements — the removed
region is silently dropped and no escalation happens. -/
theorem diff_removed_region :
    (∀ (p c : CalendarDisplayLayout),
      (∃ r, regionChanged p c r = true ∧ regionGet r c = none) →
      changedElements p c = [] →
      calculateDiff (some p) c
        = { type := DisplayUpdateType.FULL, elements := getAllElements c,
            clearBefore := true }) ∧
    (∀ (p c : CalendarDisplayLayout),
      (∃ r, regionChanged p c r = true ∧ regionGet r c = none) →
      1 ≤ (changedElements p c).length →
      (changedElements p c).length ≤ 2 →
      calculateDiff (some p) c
        = { type := DisplayUpdateType.INCREMENTAL,
            elements := changedElements p c, clearBefore := false }) := by
  constructor
  · intro p c _ hce
    simp only [calculateDiff, hce]
    rfl
  · intro p c _ h1 h2
    simp only [calculateDiff]
    rw [if_neg (by omega), if_neg (by omega)]
    rfl

/-- The previous layout for the C7 counterexample: a visible location. -/
def removedPrev : CalendarDisplayLayout :=
  { sampleLayout with location := some (sampleElement "location" "Room 4") }

/-- The current layout for the C7 counterexample: the location region is
gone (stale content on screen) and the title changed. -/
def removedCurr : CalendarDisplayLayout :=
  { sampleLayout with title := sampleElement "title" "Retro" }

/-- C7 counterexample: the location region was present and visible before
and is removed now, the total changed-region count is two (≤ 2), yet the
diff is `Incremental` without a leading clear — not the claimed `Full`
with a leading clear. -/
theorem diff_removed_region_counterexample :
    removedPrev.location = some (sampleElement "location" "Room 4") ∧
    (sampleElement "location" "Room 4").visible = true ∧
    removedCurr.location = none ∧
    regionChanged removedPrev removedCurr .location = true ∧
    (calculateDiff (some removedPrev) removedCurr).type
      = DisplayUpdateType.INCREMENTAL ∧
    (calculateDiff (some removedPrev) removedCurr).type ≠ DisplayUpdateType.FULL ∧
    (calculateDiff (some removedPrev) removedCurr).clearBefore = false ∧
    (calculateDiff (some removedPrev) removedCurr).elements
      = [sampleElement "title" "Retro"] := by
  decide

theorem diff_removed_region_witness :
    (calculateDiff (some removedPrev)
        { sampleLayout with location := none }).type = DisplayUpdateType.FULL ∧
    (calculateDiff (some removedPrev) removedCurr).type
      = DisplayUpdateType.INCREMENTAL :=
  ⟨by
    rw [show ({ sampleLayout with location := none } : CalendarDisplayLayout)
        = sampleLayout from rfl]
    rw [(diff_removed_region.1 removedPrev sampleLayout
      ⟨.location, by decide, by decide⟩ (by decide))],
   by
     rw [diff_removed_region.2 removedPrev removedCurr
       ⟨.location, by decide, by decide⟩ (by decide) (by decide)]⟩

/-- `TextWrappingOptions` (`wordWrap` is accepted but never read by
`wrapText`, as in the source). -/
structure TextWrappingOptions where
  maxWidth : Nat
  maxLines : Nat
  ellipsis : Bool
  wordWrap : Bool
deriving DecidableEq, Repr

/-- JavaScript `text.split(' ')`: split on every single space character
(consecutive spaces yield empty words).  Strings are modelled as their
character sequences here, so that the definitions evaluate inside the
kernel. -/
def splitOnSpace : List Char → List (List Char)
  | [] => [[]]
  | c :: cs =>
      if c = ' ' then [] :: splitOnSpace cs
      else
        match splitOnSpace cs with
        | w :: ws => (c :: w) :: ws
        | [] => [[c]]

/-- The in-place ellipsis edit
`lines[lines.length - 1] = lines[lines.length - 1].slice(0, -3) + '...'`.
(On an empty list the JavaScript indexing would fault; that branch is
unreachable for `maxLines ≥ 1`.) -/
def applyEllipsisLast : List (List Char) → List (List Char)
  | [] => []
  | [l] => [l.take (l.length - 3) ++ ['.', '.', '.']]
  | l :: ls => l :: applyEllipsisLast ls

/-- The word loop of `DisplayRenderer.wrapText`: grow `currentLine` while
the test line fits in `maxChars` characters; on overflow push the current
line (when non-empty), and if the line budget is reached, apply the
ellipsis edit and break (the post-loop push is then guarded out because
`lines.length >= maxLines`); after the loop push the remaining line when
the budget allows. -/
def wrapLoop (maxChars maxLines : Nat) (ellipsis : Bool) :
    List (List Char) → List (List Char) → List Char → List (List Char)
  | [], lines, currentLine =>
      if currentLine ≠ [] ∧ lines.length < maxLines then lines ++ [currentLine] else lines
  | word :: words, lines, currentLine =>
      let testLine := if currentLine = [] then word else currentLine ++ [' '] ++ word
      if testLine.length ≤ maxChars then
        wrapLoop maxChars maxLines ellipsis words lines testLine
      else
        let lines1 := if currentLine = [] then lines else lines ++ [currentLine]
        if maxLines ≤ lines1.length then
          if ellipsis then applyEllipsisLast lines1 else lines1
        else
          wrapLoop maxChars maxLines ellipsis words lines1 word

/-- `DisplayRenderer.wrapText`: split on single spaces,
`maxCharsPerLine = floor(maxWidth / avgCharWidth)` with `avgCharWidth = 8`,
then run the word loop from an empty line list. -/
def wrapText (text : List Char) (options : TextWrappingOptions) : List (List Char) :=
  wrapLoop (options.maxWidth / 8) options.maxLines options.ellipsis
    (splitOnSpace text) [] []

theorem wrapLoop_maxLines_one (mc W : Nat) (e : Bool) :
    ∀ (ws : List (List Char)) (cur : List Char), ws.length + 1 ≤ W →
      2 ≤ (wrapLoop mc W e ws [] cur).length →
      ∃ s, wrapLoop mc 1 true ws [] cur = [s ++ ['.', '.', '.']] := by
  intro ws
  induction ws with
  | nil =>
      intro cur hW h2
      exfalso
      simp only [wrapLoop] at h2
      split at h2 <;> simp at h2
  | cons w ws ih =>
      intro cur hW h2
      have hW' : ws.length + 1 ≤ W := by
        simp only [List.length_cons] at hW
        omega
      simp only [wrapLoop] at h2 ⊢
      by_cases hcur : cur = []
      · subst hcur
        simp only [reduceIte] at h2 ⊢
        by_cases hfit : w.length ≤ mc
        · rw [if_pos hfit] at h2 ⊢
          exact ih w hW' h2
        · rw [if_neg hfit] at h2 ⊢
          rw [if_neg (by simp only [List.length_nil]; omega)] at h2
          rw [if_neg (by simp)]
          exact ih w hW' h2
      · simp only [if_neg hcur] at h2 ⊢
        by_cases hfit : (cur ++ [' '] ++ w).length ≤ mc
        · rw [if_pos hfit] at h2 ⊢
          exact ih (cur ++ [' '] ++ w) hW' h2
        · rw [if_neg hfit]
          rw [if_pos (by simp)]
          exact ⟨cur.take (cur.length - 3), rfl⟩

/-- C9: whenever word wrapping at `maxWidth` with an effectively unlimited
line budget (`maxLines` = word count + 1, a bound the loop can never
reach) produces two or more lines, wrapping the same text with
`maxLines = 1` and `ellipsis = true` returns exactly one line, and that
line ends with `"..."` — never two or more lines. -/
theorem wrapText_maxLines_one (text : List Char) (maxWidth : Nat)
    (h : 2 ≤ (wrapText text
        ⟨maxWidth, (splitOnSpace text).length + 1, false, true⟩).length) :
    ∃ s, wrapText text ⟨maxWidth, 1, true, true⟩ = [s ++ ['.', '.', '.']] :=
  wrapLoop_maxLines_one (maxWidth / 8) ((splitOnSpace text).length + 1) false
    (splitOnSpace text) [] (by omega) h

theorem wrapText_maxLines_one_witness :
    2 ≤ (wrapText ("aaaa bbbb".toList)
        ⟨40, (splitOnSpace "aaaa bbbb".toList).length + 1, false, true⟩).length ∧
    ∃ s, wrapText ("aaaa bbbb".toList) ⟨40, 1, true, true⟩ = [s ++ ['.', '.', '.']] :=
  ⟨by decide, wrapText_maxLines_one ("aaaa bbbb".toList) 40 (by decide)⟩

end Display

namespace Utils

/-!
Embedding of `sanitizeForDisplay` (`src/utils/`): strings are modelled as
their character sequences.  The emoji regex (with the `u` flag) deletes
whole code points in the listed ranges; the second regex
`[^\x20-\x7E\n\r\t]/g` deletes every other character outside the kept
set (it works on UTF-16 code units, but every non-ASCII code point —
whether one unit or a surrogate pair — is deleted either way, so the
character-level filter is equivalent); `\s+` runs are collapsed to one
space and `trim()` strips leading/trailing whitespace.
-/

/-- The emoji ranges of the sanitizer's first regex. -/
def isEmojiChar (c : Char) : Bool :=
  (decide (0x1F600 ≤ c.toNat) && decide (c.toNat ≤ 0x1F64F)) ||
  (decide (0x1F300 ≤ c.toNat) && decide (c.toNat ≤ 0x1F5FF)) ||
  (decide (0x1F680 ≤ c.toNat) && decide (c.toNat ≤ 0x1F6FF)) ||
  (decide (0x1F1E0 ≤ c.toNat) && decide (c.toNat ≤ 0x1F1FF)) ||
  (decide (0x2600 ≤ c.toNat) && decide (c.toNat ≤ 0x26FF)) ||
  (decide (0x2700 ≤ c.toNat) && decide (c.toNat ≤ 0x27BF))

/-- The kept set of the second regex: printable ASCII plus `\n`, `\r`,
`\t`. -/
def isAllowedAfterStrip (c : Char) : Bool :=
  (decide (0x20 ≤ c.toNat) && decide (c.toNat ≤ 0x7E)) ||
    c = '\n' || c = '\r' || c = '\t'

/-- The JavaScript `\s` whitespace class (also what `trim()` strips). -/
def jsWhitespace (c : Char) : Bool :=
  c = ' ' || c = '\t' || c = '\n' || c.toNat = 0x0B || c.toNat = 0x0C || c = '\r' ||
    c.toNat = 0xA0 || c.toNat = 0x1680 ||
    (decide (0x2000 ≤ c.toNat) && decide (c.toNat ≤ 0x200A)) ||
    c.toNat = 0x2028 || c.toNat = 0x2029 || c.toNat = 0x202F ||
    c.toNat = 0x205F || c.toNat = 0x3000 || c.toNat = 0xFEFF

/-- `replace(/\s+/g, ' ')`: every maximal whitespace run becomes a single
space.  The flag says whether we are inside a run whose space has already
been emitted. -/
def collapseWS : Bool → List Char → List Char
  | _, [] => []
  | inRun, c :: cs =>
      if jsWhitespace c then
        if inRun then collapseWS true cs else ' ' :: collapseWS true cs
      else c :: collapseWS false cs

/-- JavaScript `trim()`: drop whitespace from both ends. -/
def jsTrim (l : List Char) : List Char :=
  ((l.dropWhile jsWhitespace).reverse.dropWhile jsWhitespace).reverse

/-- The two filter passes of `sanitizeForDisplay`. -/
def sanitizeStage2 (text : List Char) : List Char :=
  (text.filter (fun c => !(isEmojiChar c))).filter isAllowedAfterStrip

/-- `sanitizeForDisplay`: emoji removal, non-ASCII removal, whitespace
normalisation, trim. -/
def sanitizeForDisplay (text : List Char) : List Char :=
  jsTrim (collapseWS false (sanitizeStage2 text))

theorem mem_collapseWS {c : Char} :
    ∀ (l : List Char) (b : Bool), c ∈ collapseWS b l →
      c = ' ' ∨ (c ∈ l ∧ jsWhitespace c = false) := by
  intro l
  induction l with
  | nil => intro b h; simp [collapseWS] at h
  | cons a l ih =>
      intro b h
      simp only [collapseWS] at h
      by_cases ha : jsWhitespace a = true
      · rw [if_pos ha] at h
        cases b with
        | true =>
            rw [if_pos rfl] at h
            rcases ih true h with h1 | ⟨h1, h2⟩
            · exact Or.inl h1
            · exact Or.inr ⟨List.mem_cons_of_mem _ h1, h2⟩
        | false =>
            rw [if_neg Bool.false_ne_true] at h
            rcases List.mem_cons.mp h with rfl | h1
            · exact Or.inl rfl
            · rcases ih true h1 with h2 | ⟨h2, h3⟩
              · exact Or.inl h2
              · exact Or.inr ⟨List.mem_cons_of_mem _ h2, h3⟩
      · rw [if_neg ha] at h
        rcases List.mem_cons.mp h with rfl | h1
        · exact Or.inr ⟨List.mem_cons_self _ _, by simpa using ha⟩
        · rcases ih false h1 with h2 | ⟨h2, h3⟩
          · exact Or.inl h2
          · exact Or.inr ⟨List.mem_cons_of_mem _ h2, h3⟩

theorem head?_collapseWS_true :
    ∀ (l : List Char) (c : Char),
      (collapseWS true l).head? = some c → jsWhitespace c = false := by
  intro l
  induction l with
  | nil => intro c h; simp [collapseWS] at h
  | cons a l ih =>
      intro c h
      simp only [collapseWS] at h
      by_cases ha : jsWhitespace a = true
      · rw [if_pos ha] at h
        rw [if_pos trivial] at h
        exact ih c h
      · rw [if_neg ha] at h
        simp only [List.head?_cons, Option.some.injEq] at h
        rw [← h]
        simpa using ha

theorem chain'_collapseWS :
    ∀ (l : List Char) (b : Bool),
      List.Chain' (fun x y => ¬(jsWhitespace x = true ∧ jsWhitespace y = true))
        (collapseWS b l) := by
  intro l
  induction l with
  | nil => intro b; simp [collapseWS]
  | cons a l ih =>
      intro b
      simp only [collapseWS]
      by_cases ha : jsWhitespace a = true
      · rw [if_pos ha]
        cases b with
        | true =>
            rw [if_pos rfl]
            exact ih true
        | false =>
            rw [if_neg Bool.false_ne_true]
            rw [List.chain'_cons']
            refine ⟨?_, ih true⟩
            intro y hy hcontra
            have hne := head?_collapseWS_true l y hy
            rw [hcontra.2] at hne
            cases hne
      · rw [if_neg ha]
        rw [List.chain'_cons']
        refine ⟨?_, ih false⟩
        intro y hy hcontra
        exact ha hcontra.1

theorem head?_dropWhile_not (p : Char → Bool) :
    ∀ (l : List Char) (c : Char),
      (l.dropWhile p).head? = some c → p c = false := by
  intro l
  induction l with
  | nil => intro c h; simp at h
  | cons a l ih =>
      intro c h
      rw [List.dropWhile_cons] at h
      by_cases ha : p a = true
      · rw [if_pos ha] at h
        exact ih c h
      · rw [if_neg ha] at h
        simp only [List.head?_cons, Option.some.injEq] at h
        rw [← h]
        simpa using ha

/-- `jsTrim l` followed by the reversed trailing whitespace reassembles the
front-trimmed list: the decomposition behind "trim only removes characters
at the two ends". -/
theorem jsTrim_append_eq (l : List Char) :
    jsTrim l ++ ((l.dropWhile jsWhitespace).reverse.takeWhile jsWhitespace).reverse
      = l.dropWhile jsWhitespace := by
  unfold jsTrim
  rw [← List.reverse_append, List.takeWhile_append_dropWhile, List.reverse_reverse]

/-- C10: every character of the sanitized text is printable ASCII
(`0x20`–`0x7E`); no two consecutive characters are both whitespace; and the
first and last characters (when they exist) are not whitespace. -/
theorem sanitizeForDisplay_spec (text : List Char) :
    (∀ c ∈ sanitizeForDisplay text, 0x20 ≤ c.toNat ∧ c.toNat ≤ 0x7E) ∧
    List.Chain' (fun x y => ¬(jsWhitespace x = true ∧ jsWhitespace y = true))
      (sanitizeForDisplay text) ∧
    (∀ c, (sanitizeForDisplay text).head? = some c → jsWhitespace c = false) ∧
    (∀ c, (sanitizeForDisplay text).getLast? = some c → jsWhitespace c = false) := by
  obtain ⟨tsuf, htsuf⟩ :
      ∃ t, jsTrim (collapseWS false (sanitizeStage2 text)) ++ t
        = (collapseWS false (sanitizeStage2 text)).dropWhile jsWhitespace :=
    ⟨_, jsTrim_append_eq _⟩
  obtain ⟨tpre, htpre⟩ :
      ∃ t, t ++ (collapseWS false (sanitizeStage2 text)).dropWhile jsWhitespace
        = collapseWS false (sanitizeStage2 text) :=
    ⟨_, List.takeWhile_append_dropWhile _ _⟩
  refine ⟨?_, ?_, ?_, ?_⟩
  · intro c hc
    have hc1 : c ∈ (collapseWS false (sanitizeStage2 text)).dropWhile jsWhitespace := by
      rw [← htsuf]
      exact List.mem_append_left _ hc
    have hc2 : c ∈ collapseWS false (sanitizeStage2 text) := by
      rw [← htpre]
      exact List.mem_append_right _ hc1
    rcases mem_collapseWS _ _ hc2 with rfl | ⟨hmem, hws⟩
    · exact ⟨by decide, by decide⟩
    · have hallow : isAllowedAfterStrip c = true := (List.mem_filter.mp hmem).2
      simp only [isAllowedAfterStrip, Bool.or_eq_true, Bool.and_eq_true,
        decide_eq_true_eq] at hallow
      rcases hallow with ((⟨h1, h2⟩ | h1) | h1) | h1
      · exact ⟨h1, h2⟩
      · rw [h1] at hws
        simp [jsWhitespace] at hws
      · rw [h1] at hws
        simp [jsWhitespace] at hws
      · rw [h1] at hws
        simp [jsWhitespace] at hws
  · have hA := chain'_collapseWS (sanitizeStage2 text) false
    rw [← htpre] at hA
    have hB := (List.chain'_append.mp hA).2.1
    rw [← htsuf] at hB
    exact (List.chain'_append.mp hB).1
  · intro c hc
    cases hr : sanitizeForDisplay text with
    | nil => rw [hr] at hc; cases hc
    | cons x r =>
        rw [hr] at hc
        simp only [List.head?_cons, Option.some.injEq] at hc
        have hr' : jsTrim (collapseWS false (sanitizeStage2 text)) = x :: r := hr
        have hhead : ((collapseWS false (sanitizeStage2 text)).dropWhile
            jsWhitespace).head? = some c := by
          rw [← htsuf, hr']
          simp [hc]
        exact head?_dropWhile_not jsWhitespace _ c hhead
  · intro c hc
    have hrev : (sanitizeForDisplay text).reverse
        = ((collapseWS false (sanitizeStage2 text)).dropWhile
            jsWhitespace).reverse.dropWhile jsWhitespace := by
      show (jsTrim (collapseWS false (sanitizeStage2 text))).reverse = _
      unfold jsTrim
      rw [List.reverse_reverse]
    have hc2 : (((collapseWS false (sanitizeStage2 text)).dropWhile
        jsWhitespace).reverse.dropWhile jsWhitespace).head? = some c := by
      rw [← hrev, List.head?_reverse]
      exact hc
    exact head?_dropWhile_not jsWhitespace _ c hc2

theorem sanitizeForDisplay_spec_witness :
    'a' ∈ sanitizeForDisplay ("  a  b ".toList) ∧
    0x20 ≤ ('a' : Char).toNat ∧ ('a' : Char).toNat ≤ 0x7E :=
  ⟨by decide,
   (sanitizeForDisplay_spec ("  a  b ".toList)).1 'a' (by decide)⟩

end Utils
